import Mathlib

/-!
Shallow embedding of `src/event.c` (microFSM event dispatch).

Pointers are modelled as addresses of type `Nat`, with address `0` playing the
role of the C null pointer.  Listener objects live in a heap `Heap : Nat →
mfsm_EventListener`; destination `mfsm_Event*` pointers of `getNextEvent` point
into a separate event heap `EHeap : Nat → mfsm_Event`.  The struct layouts
(`mfsm_Event`, `mfsm_EventListener`, `mfsm_EventQueue`) and the capacity
constants `MAX_EVENTS` / `MAX_EVENT_LISTENERS` are declared in `event.h`, which
is not part of `src/`; the structs are forced by the field accesses in
`event.c` and spec section 3, and the capacities are kept as explicit `Nat`
parameters (spec section 6 records them as build-time constants without fixing
their values).  Counts (`numEvents`, `numListeners`) are C `int`s that the code
keeps in `[0, capacity]`; they are modelled as `Nat`, with the source's
comparisons (`< 1`, `>= MAX`) kept literally.
-/

namespace MicroFSM

/-- The `mfsm_Event` struct: a single integer identifier (event.c:17-19,
spec section 3). -/
structure mfsm_Event where
  id : Int
deriving DecidableEq

/-- The `mfsm_EventListener` struct: a buffer of events indexed by `Nat`
(the C array `events[MAX_EVENTS]`; only indices below the capacity are ever
read or written by the code) together with the occupancy count `numEvents`. -/
structure mfsm_EventListener where
  events : Nat → mfsm_Event
  numEvents : Nat

/-- The `mfsm_EventQueue` struct: an array of listener pointers (slot index →
listener address, `0` = empty slot) together with `numListeners`. -/
structure mfsm_EventQueue where
  listeners : Nat → Nat
  numListeners : Nat

/-- Listener memory: listener address → listener object. Address `0` is NULL
and is never dereferenced by the (guarded) code. -/
abbrev Heap := Nat → mfsm_EventListener

/-- Event memory for the `dest` pointer of `getNextEvent`. Address `0` is
NULL. -/
abbrev EHeap := Nat → mfsm_Event

/-- Function `initEvent` (event.c:17-19): sets the id field. -/
def initEvent (e : mfsm_Event) (id : Int) : mfsm_Event :=
  { e with id := id }

/-- Function `initEventListener` (event.c:34-36): sets `numEvents` to 0; the buffer
keeps whatever (uninitialized) contents it had. -/
def initEventListener (el : mfsm_EventListener) : mfsm_EventListener :=
  { el with numEvents := 0 }

/-- Function `getNextEvent` (event.c:53-76): null-listener check (-1), then
null-destination check (-2), then emptiness check (-3); on success copies the
id of the most recently appended event (`events[numEvents-1]`) to `dest`,
decrements `numEvents` and returns the new count. -/
def getNextEvent (h : Heap) (eh : EHeap) (el dest : Nat) : Heap × EHeap × Int :=
  if el = 0 then (h, eh, -1)
  else if dest = 0 then (h, eh, -2)
  else if (h el).numEvents < 1 then (h, eh, -3)
  else
    let l := h el
    let eh' := Function.update eh dest { id := (l.events (l.numEvents - 1)).id }
    let l' : mfsm_EventListener := { l with numEvents := l.numEvents - 1 }
    (Function.update h el l', eh', ((l.numEvents - 1 : Nat) : Int))

/-- Function `appendEvent` (event.c:91-109): null-listener check (-1), then capacity
check `numEvents >= MAX_EVENTS` (-2); on success copies the event id into slot
`numEvents`, increments `numEvents` and returns the new count. -/
def appendEvent (MAX_EVENTS : Nat) (h : Heap) (el : Nat) (e : mfsm_Event) :
    Heap × Int :=
  if el = 0 then (h, -1)
  else if (h el).numEvents ≥ MAX_EVENTS then (h, -2)
  else
    let l := h el
    let l' : mfsm_EventListener :=
      { events := Function.update l.events l.numEvents { id := e.id },
        numEvents := l.numEvents + 1 }
    (Function.update h el l', ((l.numEvents + 1 : Nat) : Int))

/-- Function `initEventQueue` (event.c:124-131): sets `numListeners` to 0 and clears
every slot with index below `MAX_EVENT_LISTENERS` to null. -/
def initEventQueue (MAX_EVENT_LISTENERS : Nat) (eq : mfsm_EventQueue) :
    mfsm_EventQueue :=
  { numListeners := 0,
    listeners := fun i => if i < MAX_EVENT_LISTENERS then 0 else eq.listeners i }

/-- The scan loop of `addListener` (event.c:162-171): starting at slot `i`
with `fuel` iterations remaining, store `el` in the first null slot (and
increment `numListeners`, returning 0); return -2 if the loop runs out. -/
def addScan (q : mfsm_EventQueue) (el : Nat) (i fuel : Nat) :
    mfsm_EventQueue × Int :=
  match fuel with
  | 0 => (q, -2)
  | Nat.succ fuel =>
    if q.listeners i = 0 then
      ({ listeners := Function.update q.listeners i el,
         numListeners := q.numListeners + 1 }, 0)
    else addScan q el (i + 1) fuel

/-- Function `addListener` (event.c:147-172): null-queue check (-1), null-listener
check (-3), capacity check `numListeners >= MAX_EVENT_LISTENERS` (-2), then a
scan over slots `0 ≤ i < MAX_EVENT_LISTENERS` for the first empty slot. -/
def addListener (MAX_EVENT_LISTENERS : Nat) (eq : Option mfsm_EventQueue)
    (el : Nat) : Option mfsm_EventQueue × Int :=
  match eq with
  | none => (none, -1)
  | some q =>
    if el = 0 then (some q, -3)
    else if q.numListeners ≥ MAX_EVENT_LISTENERS then (some q, -2)
    else
      let r := addScan q el 0 MAX_EVENT_LISTENERS
      (some r.1, r.2)

/-- The scan loop of `removeListener` (event.c:204-215): nullify the first
slot equal to `el` (decrementing `numListeners`, returning 0); return -4 if
the loop runs out. -/
def removeScan (q : mfsm_EventQueue) (el : Nat) (i fuel : Nat) :
    mfsm_EventQueue × Int :=
  match fuel with
  | 0 => (q, -4)
  | Nat.succ fuel =>
    if q.listeners i = el then
      ({ listeners := Function.update q.listeners i 0,
         numListeners := q.numListeners - 1 }, 0)
    else removeScan q el (i + 1) fuel

/-- Function `removeListener` (event.c:189-216): null-queue check (-1), null-listener
check (-3), already-empty check `numListeners < 1` (-2), then a scan over
slots `0 ≤ i < MAX_EVENT_LISTENERS` for a slot holding `el`. -/
def removeListener (MAX_EVENT_LISTENERS : Nat) (eq : Option mfsm_EventQueue)
    (el : Nat) : Option mfsm_EventQueue × Int :=
  match eq with
  | none => (none, -1)
  | some q =>
    if el = 0 then (some q, -3)
    else if q.numListeners < 1 then (some q, -2)
    else
      let r := removeScan q el 0 MAX_EVENT_LISTENERS
      (some r.1, r.2)

/-- The broadcast loop of `sendEvent` (event.c:237-243): starting at slot `i`
with `fuel` iterations remaining (the C loop runs for `i < eq.numListeners`,
so `sendEvent` passes `fuel = numListeners`), calls `appendEvent` on the
pointer stored in each visited slot and counts the calls that returned a
negative code. Returns the final listener heap and `numErrors`. -/
def sendLoop (MAX_EVENTS : Nat) (h : Heap) (q : mfsm_EventQueue)
    (e : mfsm_Event) (i fuel : Nat) : Heap × Nat :=
  match fuel with
  | 0 => (h, 0)
  | Nat.succ fuel =>
    let r := appendEvent MAX_EVENTS h (q.listeners i) e
    let rest := sendLoop MAX_EVENTS r.1 q e (i + 1) fuel
    (rest.1, (if r.2 < 0 then 1 else 0) + rest.2)

/-- Function `sendEvent` (event.c:231-250): takes the queue and event by value, loops
over slots `0 ≤ i < eq.numListeners`, and returns -1 when `numErrors != 0`,
otherwise 0. -/
def sendEvent (MAX_EVENTS : Nat) (h : Heap) (eq : mfsm_EventQueue)
    (e : mfsm_Event) : Heap × Int :=
  let r := sendLoop MAX_EVENTS h eq e 0 eq.numListeners
  if r.2 ≠ 0 then (r.1, -1) else (r.1, 0)

/-- The listener value produced by a successful `appendEvent` on listener
value `l`: the event id is copied into slot `numEvents` and the count grows by
one. Used to phrase delivery theorems. -/
def pushEvent (l : mfsm_EventListener) (e : mfsm_Event) : mfsm_EventListener :=
  { events := Function.update l.events l.numEvents { id := e.id },
    numEvents := l.numEvents + 1 }

/-- Fold a sequence of `appendEvent` calls (keeping only the heap), i.e. the
caller-side loop `for e in es: appendEvent(el, e)`. -/
def appendAll (MAX_EVENTS : Nat) (h : Heap) (el : Nat)
    (es : List mfsm_Event) : Heap :=
  es.foldl (fun hh e => (appendEvent MAX_EVENTS hh el e).1) h

/-- Three successive `getNextEvent` calls on listener `el` with destination
`dest`, returning the three call results in order. -/
def deq3 (h : Heap) (eh : EHeap) (el dest : Nat) :
    (Heap × EHeap × Int) × (Heap × EHeap × Int) × (Heap × EHeap × Int) :=
  let g1 := getNextEvent h eh el dest
  let g2 := getNextEvent g1.1 g1.2.1 el dest
  let g3 := getNextEvent g2.1 g2.2.1 el dest
  (g1, g2, g3)

/-- Number of non-null slots among indices `0 ≤ i < M` of a listeners
array `f`. -/
def countNonNull (M : Nat) (f : Nat → Nat) : Nat :=
  ((Finset.range M).filter (fun i => f i ≠ 0)).card

/-- Queue states reachable from `initEventQueue` by any sequence of
`addListener` / `removeListener` calls (through a non-null queue pointer). -/
inductive Reach (M : Nat) : mfsm_EventQueue → Prop where
  | init (q0 : mfsm_EventQueue) : Reach M (initEventQueue M q0)
  | add (q : mfsm_EventQueue) (el : Nat) (q' : mfsm_EventQueue)
      (hq : Reach M q) (hstep : (addListener M (some q) el).1 = some q') :
      Reach M q'
  | remove (q : mfsm_EventQueue) (el : Nat) (q' : mfsm_EventQueue)
      (hq : Reach M q) (hstep : (removeListener M (some q) el).1 = some q') :
      Reach M q'

/-- A caller's program state: its (by-value) queue variable and the listener
heap. -/
structure ProgState where
  heap : Heap
  queue : mfsm_EventQueue

/-- The caller-side semantics of the call `sendEvent(eq, e)`: since both
parameters are passed by value (event.c:231), only the listener heap can
change in the caller's state. -/
def sendEventCall (MAX_EVENTS : Nat) (s : ProgState) (e : mfsm_Event) :
    ProgState × Int :=
  let r := sendEvent MAX_EVENTS s.heap s.queue e
  ({ s with heap := r.1 }, r.2)

/-! ### Concrete fixtures used by witnesses and counterexamples -/

/-- A listener with an all-zero buffer and no buffered events. -/
def emptyListener : mfsm_EventListener :=
  { events := fun _ => { id := 0 }, numEvents := 0 }

/-- A heap in which every address holds an empty listener. -/
def emptyHeap : Heap := fun _ => emptyListener

/-- An event heap holding the zero event everywhere. -/
def zeroEHeap : EHeap := fun _ => { id := 0 }

/-- Heap for the C4 scenario: listener A at address 1 is full at capacity 1
(holding the event with id 5); listener B at address 2 is empty. -/
def heapAB : Heap := fun a =>
  if a = 1 then { events := fun _ => { id := 5 }, numEvents := 1 }
  else emptyListener

/-- Queue for the C4 scenario: A registered first (slot 0), B second
(slot 1). -/
def queueAB : mfsm_EventQueue :=
  { listeners := fun i => if i = 0 then 1 else if i = 1 then 2 else 0,
    numListeners := 2 }

/-- Heap in which every listener already holds 2 events. -/
def fullHeap2 : Heap := fun _ =>
  { events := fun _ => { id := 3 }, numEvents := 2 }

/-- A queue whose only registration (address 2) sits in slot 1 while
`numListeners = 1`: slot 0 is null, so the only non-empty slot lies beyond
the occupied count. Such a state is reached by registering two listeners and
removing the one in slot 0. -/
def qGap : mfsm_EventQueue :=
  { listeners := fun i => if i = 1 then 2 else 0, numListeners := 1 }

/-- A queue holding the same listener address 1 in both slot 0 and slot 1
(duplicate registration). -/
def qDup : mfsm_EventQueue :=
  { listeners := fun i => if i < 2 then 1 else 0, numListeners := 2 }

/-- An uninitialized queue full of garbage, used as the argument of
`initEventQueue` in reachability witnesses. -/
def junkQueue : mfsm_EventQueue :=
  { listeners := fun _ => 3, numListeners := 5 }

/-- The queue obtained by initializing `junkQueue` with capacity 2. -/
def wq0 : mfsm_EventQueue := initEventQueue 2 junkQueue

/-- Queue `wq0` after registering listener address 1. -/
def wq1 : mfsm_EventQueue := (addListener 2 (some wq0) 1).1.getD junkQueue

/-- Queue `wq1` after registering listener address 2 (the registry is now full). -/
def wq2 : mfsm_EventQueue := (addListener 2 (some wq1) 2).1.getD junkQueue

/-- Queue `wq0` after registering listener address 1 once. -/
def dq1 : mfsm_EventQueue := (addListener 2 (some wq0) 1).1.getD junkQueue

/-- Queue `dq1` after registering listener address 1 a second time (duplicate
registration in slots 0 and 1). -/
def dq2 : mfsm_EventQueue := (addListener 2 (some dq1) 1).1.getD junkQueue

/-- Queue `dq2` after one `removeListener` of address 1: slot 0 is nulled,
`numListeners` drops to 1, and the duplicate in slot 1 survives. -/
def dq3 : mfsm_EventQueue := (removeListener 2 (some dq2) 1).1.getD junkQueue

/-- A queue with no registrations. -/
def qEmptyQ : mfsm_EventQueue := { listeners := fun _ => 0, numListeners := 0 }

/-- A queue registering only listener address 1 (in slot 0). -/
def qNF : mfsm_EventQueue :=
  { listeners := fun i => if i = 0 then 1 else 0, numListeners := 1 }

/-- A queue with a null slot inside the iterated range: slot 0 holds address
1 but slot 1 is null while `numListeners = 2`. -/
def qNull : mfsm_EventQueue :=
  { listeners := fun i => if i = 0 then 1 else 0, numListeners := 2 }

/-! ### Basic lemmas about `appendEvent` and `getNextEvent` -/

theorem appendEvent_null (MAX : Nat) (h : Heap) (e : mfsm_Event) :
    appendEvent MAX h 0 e = (h, -1) := by
  simp [appendEvent]

theorem appendEvent_full (MAX : Nat) (h : Heap) (el : Nat) (e : mfsm_Event)
    (hel : el ≠ 0) (hfull : (h el).numEvents ≥ MAX) :
    appendEvent MAX h el e = (h, -2) := by
  simp [appendEvent, hel, hfull]

theorem appendEvent_success (MAX : Nat) (h : Heap) (el : Nat) (e : mfsm_Event)
    (hel : el ≠ 0) (hlt : (h el).numEvents < MAX) :
    appendEvent MAX h el e =
      (Function.update h el (pushEvent (h el) e),
        (((h el).numEvents + 1 : Nat) : Int)) := by
  simp [appendEvent, pushEvent, hel, Nat.not_le.mpr hlt]

theorem appendEvent_frame (MAX : Nat) (h : Heap) (el a : Nat) (e : mfsm_Event)
    (ha : a ≠ el) : (appendEvent MAX h el e).1 a = h a := by
  by_cases h0 : el = 0
  · simp [appendEvent, h0]
  by_cases hf : (h el).numEvents ≥ MAX
  · simp [appendEvent, h0, hf]
  · simp [appendEvent, h0, hf, Function.update_noteq ha]

theorem getNextEvent_success (h : Heap) (eh : EHeap) (el dest : Nat)
    (hel : el ≠ 0) (hd : dest ≠ 0) (hne : 1 ≤ (h el).numEvents) :
    getNextEvent h eh el dest =
      (Function.update h el { h el with numEvents := (h el).numEvents - 1 },
       Function.update eh dest
         { id := ((h el).events ((h el).numEvents - 1)).id },
       (((h el).numEvents - 1 : Nat) : Int)) := by
  simp [getNextEvent, hel, hd, Nat.not_lt.mpr hne]

/-! ### Claim theorems -/

/-- Claim C6: `getNextEvent` checks its preconditions in priority order (null
listener → -1, then null destination → -2, then emptiness → -3), and the
empty-failure path leaves both heaps, hence count and buffer, unchanged. -/
theorem getNextEvent_error_priority (h : Heap) (eh : EHeap) (el dest : Nat) :
    (el = 0 → getNextEvent h eh el dest = (h, eh, -1)) ∧
    (el ≠ 0 → dest = 0 → getNextEvent h eh el dest = (h, eh, -2)) ∧
    (el ≠ 0 → dest ≠ 0 → (h el).numEvents < 1 →
      getNextEvent h eh el dest = (h, eh, -3)) := by
  refine ⟨fun h0 => by simp [getNextEvent, h0],
          fun h0 hd => by simp [getNextEvent, h0, hd],
          fun h0 hd hcnt => by simp [getNextEvent, h0, hd, hcnt]⟩

/-- Witness for C6 at concrete inputs: the three error paths observed at
addresses (0, 1), (1, 0) and (1, 2) over the empty heap. -/
theorem getNextEvent_error_priority_witness :
    getNextEvent emptyHeap zeroEHeap 0 1 = (emptyHeap, zeroEHeap, -1) ∧
    getNextEvent emptyHeap zeroEHeap 1 0 = (emptyHeap, zeroEHeap, -2) ∧
    getNextEvent emptyHeap zeroEHeap 1 2 = (emptyHeap, zeroEHeap, -3) :=
  ⟨(getNextEvent_error_priority emptyHeap zeroEHeap 0 1).1 rfl,
   (getNextEvent_error_priority emptyHeap zeroEHeap 1 0).2.1 (by decide) rfl,
   (getNextEvent_error_priority emptyHeap zeroEHeap 1 2).2.2 (by decide)
     (by decide) (by decide)⟩

/-- Claim C4: with `MAX_EVENTS = 1`, listener A (address 1) full and listener
B (address 2) empty, `sendEvent` of event id 9 returns -1 (partial failure);
B receives the event (its count becomes 1 and a `getNextEvent` yields id 9
with new count 0), while A's count and buffered event are unchanged — the
successful delivery to B is not rolled back. -/
theorem sendEvent_partial_failure :
    (sendEvent 1 heapAB queueAB { id := 9 }).2 = -1 ∧
    ((sendEvent 1 heapAB queueAB { id := 9 }).1 2).numEvents = 1 ∧
    (getNextEvent (sendEvent 1 heapAB queueAB { id := 9 }).1
        zeroEHeap 2 3).2.2 = 0 ∧
    ((getNextEvent (sendEvent 1 heapAB queueAB { id := 9 }).1
        zeroEHeap 2 3).2.1 3).id = 9 ∧
    ((sendEvent 1 heapAB queueAB { id := 9 }).1 1).numEvents = 1 ∧
    (((sendEvent 1 heapAB queueAB { id := 9 }).1 1).events 0).id = 5 := by
  decide

/-- Counting lemma for C3: successful appends increment the count one by
one. -/
theorem appendAll_count (MAX : Nat) (el : Nat) (hel : el ≠ 0) :
    ∀ (es : List mfsm_Event) (h : Heap),
      (h el).numEvents + es.length ≤ MAX →
      ((appendAll MAX h el es) el).numEvents = (h el).numEvents + es.length := by
  intro es
  induction es with
  | nil => intro h _; simp [appendAll]
  | cons e es ih =>
    intro h hle
    have hlt : (h el).numEvents < MAX := by
      simp only [List.length_cons] at hle; omega
    have hstep := appendEvent_success MAX h el e hel hlt
    have hupd : ((appendEvent MAX h el e).1 el).numEvents =
        (h el).numEvents + 1 := by
      rw [hstep]; simp [pushEvent]
    have htail : appendAll MAX h el (e :: es) =
        appendAll MAX (appendEvent MAX h el e).1 el es := rfl
    rw [htail, ih (appendEvent MAX h el e).1 (by rw [hupd]; simp at hle ⊢; omega),
      hupd]
    simp; omega

/-- Claim C3: starting from an empty listener, after `k` successful enqueues
the count equals `k`; an enqueue attempted when the count equals `MAX_EVENTS`
fails with -2 (`Full`) and the whole listener heap — hence the listener's
count and buffer — is returned unchanged; the other failure path (null
listener, -1) leaves the heap unchanged as well, so no failure path mutates
anything. -/
theorem appendEvent_count_and_full (MAX : Nat) (el : Nat) (hel : el ≠ 0) :
    (∀ (h : Heap) (es : List mfsm_Event), (h el).numEvents = 0 →
        es.length ≤ MAX →
        ((appendAll MAX h el es) el).numEvents = es.length) ∧
    (∀ (h : Heap) (e : mfsm_Event), (h el).numEvents = MAX →
        appendEvent MAX h el e = (h, -2)) ∧
    (∀ (h : Heap) (e : mfsm_Event), appendEvent MAX h 0 e = (h, -1)) := by
  refine ⟨?_, ?_, fun h e => appendEvent_null MAX h e⟩
  · intro h es h0 hlen
    have := appendAll_count MAX el hel es h (by omega)
    omega
  · intro h e hfull
    exact appendEvent_full MAX h el e hel (le_of_eq hfull.symm)

/-- Witness for C3 with `MAX_EVENTS = 2`: two appends onto an empty listener
give count 2, and an append onto a full listener returns -2 leaving the heap
unchanged. -/
theorem appendEvent_count_and_full_witness :
    ((appendAll 2 emptyHeap 1 [{ id := 5 }, { id := 6 }]) 1).numEvents = 2 ∧
    appendEvent 2 fullHeap2 1 { id := 9 } = (fullHeap2, -2) ∧
    appendEvent 2 emptyHeap 0 { id := 9 } = (emptyHeap, -1) :=
  ⟨(appendEvent_count_and_full 2 1 (by decide)).1 emptyHeap _ rfl (by decide),
   (appendEvent_count_and_full 2 1 (by decide)).2.1 fullHeap2 { id := 9 } rfl,
   (appendEvent_count_and_full 2 1 (by decide)).2.2 emptyHeap { id := 9 }⟩

/-- Claim C2: enqueueing events with ids 1, 2, 3 (in that order, each append
succeeding and returning the new count) into a listener that starts empty and
then dequeueing three times yields ids 3, 2, 1 — last-in-first-out — with the
returned new counts 2, 1, 0. -/
theorem lifo_dequeue_order (MAX : Nat) (h : Heap) (eh : EHeap) (el dest : Nat)
    (hel : el ≠ 0) (hd : dest ≠ 0) (h0 : (h el).numEvents = 0)
    (hM : 3 ≤ MAX) :
    (appendEvent MAX h el { id := 1 }).2 = 1 ∧
    (appendEvent MAX (appendAll MAX h el [{ id := 1 }]) el { id := 2 }).2 = 2 ∧
    (appendEvent MAX (appendAll MAX h el [{ id := 1 }, { id := 2 }]) el
      { id := 3 }).2 = 3 ∧
    ((deq3 (appendAll MAX h el [{ id := 1 }, { id := 2 }, { id := 3 }])
        eh el dest).1.2.1 dest).id = 3 ∧
    (deq3 (appendAll MAX h el [{ id := 1 }, { id := 2 }, { id := 3 }])
        eh el dest).1.2.2 = 2 ∧
    ((deq3 (appendAll MAX h el [{ id := 1 }, { id := 2 }, { id := 3 }])
        eh el dest).2.1.2.1 dest).id = 2 ∧
    (deq3 (appendAll MAX h el [{ id := 1 }, { id := 2 }, { id := 3 }])
        eh el dest).2.1.2.2 = 1 ∧
    ((deq3 (appendAll MAX h el [{ id := 1 }, { id := 2 }, { id := 3 }])
        eh el dest).2.2.2.1 dest).id = 1 ∧
    (deq3 (appendAll MAX h el [{ id := 1 }, { id := 2 }, { id := 3 }])
        eh el dest).2.2.2.2 = 0 := by
  have hc0 : ¬ MAX ≤ 0 := by omega
  have hc1 : ¬ MAX ≤ 1 := by omega
  have hc2 : ¬ MAX ≤ 2 := by omega
  simp [deq3, appendAll, appendEvent, getNextEvent, hel, hd, h0, hc0, hc1,
    hc2, Function.update_apply]

/-- Witness for C2 at concrete inputs: `MAX_EVENTS = 3`, listener address 1,
destination address 2, starting from the empty heap. -/
theorem lifo_dequeue_order_witness :
    (appendEvent 3 emptyHeap 1 { id := 1 }).2 = 1 ∧
    (appendEvent 3 (appendAll 3 emptyHeap 1 [{ id := 1 }]) 1 { id := 2 }).2 = 2 ∧
    (appendEvent 3 (appendAll 3 emptyHeap 1 [{ id := 1 }, { id := 2 }]) 1
      { id := 3 }).2 = 3 ∧
    ((deq3 (appendAll 3 emptyHeap 1 [{ id := 1 }, { id := 2 }, { id := 3 }])
        zeroEHeap 1 2).1.2.1 2).id = 3 ∧
    (deq3 (appendAll 3 emptyHeap 1 [{ id := 1 }, { id := 2 }, { id := 3 }])
        zeroEHeap 1 2).1.2.2 = 2 ∧
    ((deq3 (appendAll 3 emptyHeap 1 [{ id := 1 }, { id := 2 }, { id := 3 }])
        zeroEHeap 1 2).2.1.2.1 2).id = 2 ∧
    (deq3 (appendAll 3 emptyHeap 1 [{ id := 1 }, { id := 2 }, { id := 3 }])
        zeroEHeap 1 2).2.1.2.2 = 1 ∧
    ((deq3 (appendAll 3 emptyHeap 1 [{ id := 1 }, { id := 2 }, { id := 3 }])
        zeroEHeap 1 2).2.2.2.1 2).id = 1 ∧
    (deq3 (appendAll 3 emptyHeap 1 [{ id := 1 }, { id := 2 }, { id := 3 }])
        zeroEHeap 1 2).2.2.2.2 = 0 :=
  lifo_dequeue_order 3 emptyHeap zeroEHeap 1 2 (by decide) (by decide) rfl
    (by decide)

/-! ### Lemmas about the removeListener scan -/

theorem removeScan_none (q : mfsm_EventQueue) (el : Nat) :
    ∀ (fuel i : Nat), (∀ j, i ≤ j → j < i + fuel → q.listeners j ≠ el) →
      removeScan q el i fuel = (q, -4) := by
  intro fuel
  induction fuel with
  | zero => intro i _; rfl
  | succ fuel ih =>
    intro i hnone
    have hi : ¬ q.listeners i = el := hnone i le_rfl (by omega)
    simp only [removeScan, if_neg hi]
    exact ih (i + 1) fun j h1 h2 => hnone j (by omega) (by omega)

theorem removeScan_found (q : mfsm_EventQueue) (el : Nat) :
    ∀ (fuel i : Nat), (∃ j, i ≤ j ∧ j < i + fuel ∧ q.listeners j = el) →
      (removeScan q el i fuel).2 = 0 := by
  intro fuel
  induction fuel with
  | zero => rintro i ⟨j, h1, h2, -⟩; exact absurd h2 (by omega)
  | succ fuel ih =>
    rintro i ⟨j, h1, h2, h3⟩
    by_cases hi : q.listeners i = el
    · simp [removeScan, hi]
    · have hji : j ≠ i := fun hji => hi (hji ▸ h3)
      have hr := ih (i + 1) ⟨j, by omega, by omega, h3⟩
      simp [removeScan, hi, hr]

theorem removeScan_least (q : mfsm_EventQueue) (el : Nat) :
    ∀ (fuel i i1 : Nat), i ≤ i1 → i1 < i + fuel → q.listeners i1 = el →
      (∀ j, i ≤ j → j < i1 → q.listeners j ≠ el) →
      removeScan q el i fuel =
        ({ listeners := Function.update q.listeners i1 0,
           numListeners := q.numListeners - 1 }, 0) := by
  intro fuel
  induction fuel with
  | zero => intro i i1 h1 h2 _ _; exact absurd h2 (by omega)
  | succ fuel ih =>
    intro i i1 h1 h2 hm hleast
    by_cases hii : i = i1
    · subst hii
      simp [removeScan, hm]
    · have hi : ¬ q.listeners i = el := hleast i le_rfl (by omega)
      have hr := ih (i + 1) i1 (by omega) (by omega) hm
        (fun j hj1 hj2 => hleast j (by omega) hj2)
      simp [removeScan, hi, hr]

theorem removeScan_spec (q : mfsm_EventQueue) (el : Nat) :
    ∀ (fuel i : Nat),
      removeScan q el i fuel = (q, -4) ∨
      ∃ i1, i ≤ i1 ∧ i1 < i + fuel ∧ q.listeners i1 = el ∧
        removeScan q el i fuel =
          ({ listeners := Function.update q.listeners i1 0,
             numListeners := q.numListeners - 1 }, 0) := by
  intro fuel
  induction fuel with
  | zero => intro i; left; rfl
  | succ fuel ih =>
    intro i
    by_cases hi : q.listeners i = el
    · right
      exact ⟨i, le_rfl, by omega, hi, by simp [removeScan, hi]⟩
    · rcases ih (i + 1) with h | ⟨i1, ha, hb, hc, hd⟩
      · left; simp [removeScan, hi, h]
      · right; exact ⟨i1, by omega, by omega, hc, by simp [removeScan, hi, hd]⟩

/-- Claim C5: with non-null queue and listener arguments, `removeListener` on
a queue with `numListeners = 0` fails with -2 (`AlreadyEmpty`) whatever the
slots hold; it returns -4 (`NotFound`) exactly when `numListeners ≥ 1` and no
slot (over the full capacity range) stores the given listener, and in that
case the queue — `numListeners` and all slots — is returned unchanged. -/
theorem removeListener_error_codes (M : Nat) (q : mfsm_EventQueue) (el : Nat)
    (hel : el ≠ 0) :
    (q.numListeners = 0 → removeListener M (some q) el = (some q, -2)) ∧
    ((removeListener M (some q) el).2 = -4 ↔
      1 ≤ q.numListeners ∧ ∀ i, i < M → q.listeners i ≠ el) ∧
    ((removeListener M (some q) el).2 = -4 →
      removeListener M (some q) el = (some q, -4)) := by
  by_cases hn : q.numListeners < 1
  · have hres : removeListener M (some q) el = (some q, -2) := by
      simp [removeListener, hel, hn]
    refine ⟨fun _ => hres, ?_, ?_⟩
    · rw [hres]
      constructor
      · intro hcontra; exact absurd hcontra (by simp)
      · rintro ⟨h1, -⟩; exact absurd h1 (by omega)
    · intro h4; rw [hres] at h4; exact absurd h4 (by simp)
  · have hsnd : (removeListener M (some q) el).2 = (removeScan q el 0 M).2 := by
      simp [removeListener, hel, hn]
    have hnomatch_of : (removeListener M (some q) el).2 = -4 →
        ∀ j, j < M → q.listeners j ≠ el := by
      intro h4 j hj hmatch
      have h0 := removeScan_found q el M 0 ⟨j, by omega, by omega, hmatch⟩
      rw [hsnd, h0] at h4
      exact absurd h4 (by simp)
    refine ⟨fun h0 => absurd h0 (by omega), ?_, ?_⟩
    · constructor
      · intro h4
        exact ⟨by omega, hnomatch_of h4⟩
      · rintro ⟨-, hnone⟩
        rw [hsnd, removeScan_none q el M 0 fun j h1 h2 => hnone j (by omega)]
    · intro h4
      have hscan := removeScan_none q el M 0
        fun j h1 h2 => hnomatch_of h4 j (by omega)
      simp [removeListener, hel, hn, hscan]

/-- Witness for C5 at concrete inputs: capacity 2, listener address 5; the
empty registry answers -2, and a registry holding only address 1 answers -4
and is unchanged. -/
theorem removeListener_error_codes_witness :
    removeListener 2 (some qEmptyQ) 5 = (some qEmptyQ, -2) ∧
    removeListener 2 (some qNF) 5 = (some qNF, -4) := by
  have h1 := removeListener_error_codes 2 qEmptyQ 5 (by decide)
  have h2 := removeListener_error_codes 2 qNF 5 (by decide)
  exact ⟨h1.1 rfl, h2.2.2 (h2.2.1.mpr ⟨by decide, by decide⟩)⟩

/-! ### Lemmas about the addListener scan and the registry invariant -/

theorem addScan_spec (q : mfsm_EventQueue) (el : Nat) :
    ∀ (fuel i : Nat),
      addScan q el i fuel = (q, -2) ∨
      ∃ i1, i ≤ i1 ∧ i1 < i + fuel ∧ q.listeners i1 = 0 ∧
        addScan q el i fuel =
          ({ listeners := Function.update q.listeners i1 el,
             numListeners := q.numListeners + 1 }, 0) := by
  intro fuel
  induction fuel with
  | zero => intro i; left; rfl
  | succ fuel ih =>
    intro i
    by_cases hi : q.listeners i = 0
    · right
      exact ⟨i, le_rfl, by omega, hi, by simp [addScan, hi]⟩
    · rcases ih (i + 1) with h | ⟨i1, ha, hb, hc, hd⟩
      · left; simp [addScan, hi, h]
      · right; exact ⟨i1, by omega, by omega, hc, by simp [addScan, hi, hd]⟩

theorem countNonNull_le (M : Nat) (f : Nat → Nat) : countNonNull M f ≤ M := by
  calc ((Finset.range M).filter fun i => f i ≠ 0).card
      ≤ (Finset.range M).card := Finset.card_filter_le _ _
    _ = M := Finset.card_range M

theorem countNonNull_update_fill (M : Nat) (f : Nat → Nat) (i1 el : Nat)
    (hi : i1 < M) (h0 : f i1 = 0) (hel : el ≠ 0) :
    countNonNull M (Function.update f i1 el) = countNonNull M f + 1 := by
  unfold countNonNull
  have hset : ((Finset.range M).filter fun i => Function.update f i1 el i ≠ 0) =
      insert i1 ((Finset.range M).filter fun i => f i ≠ 0) := by
    ext j
    by_cases hji : j = i1
    · subst hji
      simp [Finset.mem_filter, Finset.mem_range, Function.update_same, hel, hi]
    · simp [Finset.mem_filter, Finset.mem_insert, Finset.mem_range,
        Function.update_noteq hji, hji]
  rw [hset, Finset.card_insert_of_not_mem (by simp [Finset.mem_filter, h0])]

theorem countNonNull_update_clear (M : Nat) (f : Nat → Nat) (i1 : Nat)
    (hi : i1 < M) (h0 : f i1 ≠ 0) :
    countNonNull M (Function.update f i1 0) = countNonNull M f - 1 := by
  unfold countNonNull
  have hset : ((Finset.range M).filter fun i => Function.update f i1 0 i ≠ 0) =
      ((Finset.range M).filter fun i => f i ≠ 0).erase i1 := by
    ext j
    by_cases hji : j = i1
    · subst hji
      simp [Finset.mem_filter, Finset.mem_erase, Function.update_same]
    · simp [Finset.mem_filter, Finset.mem_erase, Finset.mem_range,
        Function.update_noteq hji, hji]
  rw [hset, Finset.card_erase_of_mem
    (by simp [Finset.mem_filter, Finset.mem_range, hi, h0])]

theorem addListener_preserves (M : Nat) (q q' : mfsm_EventQueue) (el : Nat)
    (hinv : q.numListeners = countNonNull M q.listeners)
    (hstep : (addListener M (some q) el).1 = some q') :
    q'.numListeners = countNonNull M q'.listeners := by
  by_cases h0 : el = 0
  · simp [addListener, h0] at hstep
    exact hstep ▸ hinv
  by_cases hfull : q.numListeners ≥ M
  · simp [addListener, h0, hfull] at hstep
    exact hstep ▸ hinv
  rcases addScan_spec q el M 0 with hsc | ⟨i1, ha, hb, hc, hd⟩
  · simp [addListener, h0, hfull, hsc] at hstep
    exact hstep ▸ hinv
  · simp [addListener, h0, hfull, hd] at hstep
    rw [← hstep]
    show q.numListeners + 1 = countNonNull M (Function.update q.listeners i1 el)
    rw [countNonNull_update_fill M q.listeners i1 el (by omega) hc h0, hinv]

theorem removeListener_preserves (M : Nat) (q q' : mfsm_EventQueue) (el : Nat)
    (hinv : q.numListeners = countNonNull M q.listeners)
    (hstep : (removeListener M (some q) el).1 = some q') :
    q'.numListeners = countNonNull M q'.listeners := by
  by_cases h0 : el = 0
  · simp [removeListener, h0] at hstep
    exact hstep ▸ hinv
  by_cases hn : q.numListeners < 1
  · simp [removeListener, h0, hn] at hstep
    exact hstep ▸ hinv
  rcases removeScan_spec q el M 0 with hsc | ⟨i1, ha, hb, hc, hd⟩
  · simp [removeListener, h0, hn, hsc] at hstep
    exact hstep ▸ hinv
  · simp [removeListener, h0, hn, hd] at hstep
    rw [← hstep]
    show q.numListeners - 1 = countNonNull M (Function.update q.listeners i1 0)
    rw [countNonNull_update_clear M q.listeners i1 (by omega) (hc ▸ h0), hinv]

theorem initEventQueue_inv (M : Nat) (q0 : mfsm_EventQueue) :
    (initEventQueue M q0).numListeners =
      countNonNull M (initEventQueue M q0).listeners := by
  show 0 = countNonNull M fun i => if i < M then 0 else q0.listeners i
  unfold countNonNull
  rw [Finset.filter_false_of_mem]
  · simp
  · intro i hi
    simp only [Finset.mem_range] at hi
    simp [hi]

/-- Claim C7: every queue state reachable from `initEventQueue` through
`addListener` / `removeListener` satisfies `numListeners = number of non-null
slots among indices < MAX_EVENT_LISTENERS` and hence `numListeners ≤
MAX_EVENT_LISTENERS`; once `numListeners = MAX_EVENT_LISTENERS`, the next
`addListener` of any non-null listener fails with -2 (`Full`). -/
theorem reach_registry_invariant (M : Nat) (q : mfsm_EventQueue)
    (hq : Reach M q) :
    q.numListeners = countNonNull M q.listeners ∧
    q.numListeners ≤ M ∧
    (∀ el, el ≠ 0 → q.numListeners = M →
      (addListener M (some q) el).2 = -2) := by
  have hinv : q.numListeners = countNonNull M q.listeners := by
    induction hq with
    | init q0 => exact initEventQueue_inv M q0
    | add q el q' hq hstep ih => exact addListener_preserves M q q' el ih hstep
    | remove q el q' hq hstep ih =>
      exact removeListener_preserves M q q' el ih hstep
  refine ⟨hinv, ?_, ?_⟩
  · rw [hinv]; exact countNonNull_le M q.listeners
  · intro el hel hfull
    have hge : q.numListeners ≥ M := le_of_eq hfull.symm
    simp [addListener, hel, hge]

/-- Witness for C7: the reachable queue `wq2` (capacity 2, two registrations)
satisfies the invariant, and a third registration attempt fails with -2. -/
theorem reach_registry_invariant_witness :
    wq2.numListeners = countNonNull 2 wq2.listeners ∧
    wq2.numListeners ≤ 2 ∧
    (addListener 2 (some wq2) 3).2 = -2 := by
  have hr : Reach 2 wq2 :=
    Reach.add wq1 2 wq2 (Reach.add wq0 1 wq1 (Reach.init junkQueue) rfl) rfl
  exact ⟨(reach_registry_invariant 2 wq2 hr).1,
    (reach_registry_invariant 2 wq2 hr).2.1,
    (reach_registry_invariant 2 wq2 hr).2.2 3 (by decide) rfl⟩

/-! ### Lemmas about the broadcast loop -/

theorem sendLoop_frame (MAX : Nat) (q : mfsm_EventQueue) (e : mfsm_Event)
    (a : Nat) :
    ∀ (fuel i : Nat) (h : Heap),
      (∀ j, i ≤ j → j < i + fuel → q.listeners j ≠ a) →
      (sendLoop MAX h q e i fuel).1 a = h a := by
  intro fuel
  induction fuel with
  | zero => intro i h _; rfl
  | succ fuel ih =>
    intro i h hna
    have h1 : (appendEvent MAX h (q.listeners i) e).1 a = h a :=
      appendEvent_frame MAX h _ a e (Ne.symm (hna i le_rfl (by omega)))
    show (sendLoop MAX (appendEvent MAX h (q.listeners i) e).1 q e
      (i + 1) fuel).1 a = h a
    rw [ih (i + 1) (appendEvent MAX h (q.listeners i) e).1
      (fun j hj1 hj2 => hna j (by omega) (by omega)), h1]

theorem sendEvent_heap (MAX : Nat) (h : Heap) (q : mfsm_EventQueue)
    (e : mfsm_Event) :
    (sendEvent MAX h q e).1 = (sendLoop MAX h q e 0 q.numListeners).1 := by
  unfold sendEvent
  by_cases hz : (sendLoop MAX h q e 0 q.numListeners).2 ≠ 0 <;> simp [hz]

theorem sendLoop_null_error (MAX : Nat) (q : mfsm_EventQueue)
    (e : mfsm_Event) :
    ∀ (fuel i : Nat) (h : Heap),
      (∃ j, i ≤ j ∧ j < i + fuel ∧ q.listeners j = 0) →
      (sendLoop MAX h q e i fuel).2 ≠ 0 := by
  intro fuel
  induction fuel with
  | zero => rintro i h ⟨j, h1, h2, -⟩; exact absurd h2 (by omega)
  | succ fuel ih =>
    rintro i h ⟨j, h1, h2, h3⟩
    show (if (appendEvent MAX h (q.listeners i) e).2 < 0 then 1 else 0) +
      (sendLoop MAX (appendEvent MAX h (q.listeners i) e).1 q e
        (i + 1) fuel).2 ≠ 0
    by_cases hji : j = i
    · subst hji
      rw [h3, appendEvent_null]
      simp
    · have hrest := ih (i + 1) (appendEvent MAX h (q.listeners i) e).1
        ⟨j, by omega, by omega, h3⟩
      omega

/-- The full positive specification of the broadcast loop when all the
visited slots hold distinct non-null references to non-full listeners: every
visited listener gets the event appended, and no error is counted. -/
theorem sendLoop_deliver (MAX : Nat) (q : mfsm_EventQueue) (e : mfsm_Event) :
    ∀ (fuel i : Nat) (h : Heap),
      (∀ j, i ≤ j → j < i + fuel → q.listeners j ≠ 0) →
      (∀ j k, i ≤ j → j < i + fuel → i ≤ k → k < i + fuel → j ≠ k →
        q.listeners j ≠ q.listeners k) →
      (∀ j, i ≤ j → j < i + fuel → (h (q.listeners j)).numEvents < MAX) →
      (∀ j, i ≤ j → j < i + fuel →
        (sendLoop MAX h q e i fuel).1 (q.listeners j) =
          pushEvent (h (q.listeners j)) e) ∧
      (sendLoop MAX h q e i fuel).2 = 0 := by
  intro fuel
  induction fuel with
  | zero =>
    intro i h _ _ _
    exact ⟨fun j h1 h2 => absurd h2 (by omega), rfl⟩
  | succ fuel ih =>
    intro i h hnn hdist hcap
    have hnn_i : q.listeners i ≠ 0 := hnn i le_rfl (by omega)
    have hcap_i : (h (q.listeners i)).numEvents < MAX :=
      hcap i le_rfl (by omega)
    have hs := appendEvent_success MAX h (q.listeners i) e hnn_i hcap_i
    have h1 : (appendEvent MAX h (q.listeners i) e).1 =
        Function.update h (q.listeners i) (pushEvent (h (q.listeners i)) e) :=
      by rw [hs]
    have hr : (appendEvent MAX h (q.listeners i) e).2 =
        (((h (q.listeners i)).numEvents + 1 : Nat) : Int) := by rw [hs]
    have hcap' : ∀ j, i + 1 ≤ j → j < (i + 1) + fuel →
        ((appendEvent MAX h (q.listeners i) e).1 (q.listeners j)).numEvents
          < MAX := by
      intro j hj1 hj2
      have hne : q.listeners j ≠ q.listeners i :=
        hdist j i (by omega) (by omega) le_rfl (by omega) (by omega)
      rw [h1, Function.update_noteq hne]
      exact hcap j (by omega) (by omega)
    obtain ⟨ihdel, ihcnt⟩ := ih (i + 1) (appendEvent MAX h (q.listeners i) e).1
      (fun j hj1 hj2 => hnn j (by omega) (by omega))
      (fun j k a b c d hne => hdist j k (by omega) (by omega) (by omega)
        (by omega) hne)
      hcap'
    constructor
    · intro j hj1 hj2
      show (sendLoop MAX (appendEvent MAX h (q.listeners i) e).1 q e
        (i + 1) fuel).1 (q.listeners j) = pushEvent (h (q.listeners j)) e
      by_cases hji : j = i
      · subst hji
        have hfr : (sendLoop MAX (appendEvent MAX h (q.listeners j) e).1 q e
            (j + 1) fuel).1 (q.listeners j) =
            (appendEvent MAX h (q.listeners j) e).1 (q.listeners j) :=
          sendLoop_frame MAX q e (q.listeners j) fuel (j + 1)
            (appendEvent MAX h (q.listeners j) e).1
            (fun k hk1 hk2 => hdist k j (by omega) (by omega) le_rfl
              (by omega) (by omega))
        rw [hfr, h1, Function.update_same]
      · rw [ihdel j (by omega) (by omega)]
        have hne : q.listeners j ≠ q.listeners i :=
          hdist j i (by omega) (by omega) le_rfl (by omega) hji
        rw [h1, Function.update_noteq hne]
    · show (if (appendEvent MAX h (q.listeners i) e).2 < 0 then 1 else 0) +
        (sendLoop MAX (appendEvent MAX h (q.listeners i) e).1 q e
          (i + 1) fuel).2 = 0
      rw [ihcnt, hr, if_neg (by omega)]

/-- Claim C8: `sendEvent` receives the queue by value, so the caller's queue
(`numListeners` and every slot) is unchanged by the call; the only mutations
visible to the caller are in the listener heap, and only at addresses stored
in the slots the loop visits (indices below `numListeners`). -/
theorem sendEvent_by_value_frame (MAX : Nat) (s : ProgState)
    (e : mfsm_Event) :
    (sendEventCall MAX s e).1.queue = s.queue ∧
    (∀ a, (∀ i, i < s.queue.numListeners → s.queue.listeners i ≠ a) →
      (sendEventCall MAX s e).1.heap a = s.heap a) := by
  constructor
  · rfl
  · intro a ha
    show (sendEvent MAX s.heap s.queue e).1 a = s.heap a
    rw [sendEvent_heap]
    exact sendLoop_frame MAX s.queue e a s.queue.numListeners 0 s.heap
      (fun j h1 h2 => ha j (by omega))

/-- Witness for C8 at concrete inputs: broadcasting over `queueAB` leaves the
caller's queue untouched and does not change the listener at the unrelated
address 5. -/
theorem sendEvent_by_value_frame_witness :
    (sendEventCall 1 { heap := emptyHeap, queue := queueAB }
      { id := 7 }).1.queue = queueAB ∧
    (sendEventCall 1 { heap := emptyHeap, queue := queueAB }
      { id := 7 }).1.heap 5 = emptyHeap 5 :=
  ⟨(sendEvent_by_value_frame 1 { heap := emptyHeap, queue := queueAB }
      { id := 7 }).1,
   (sendEvent_by_value_frame 1 { heap := emptyHeap, queue := queueAB }
      { id := 7 }).2 5 (by decide)⟩

/-- Claim C9: `appendEvent` on the null address returns -1 without touching
the heap, so a null reference sitting in one of the slots visited by
`sendEvent` makes that delivery count as a failure and `sendEvent` return -1
(`PartialFailure`) instead of faulting. -/
theorem sendEvent_null_slot_safe (MAX : Nat) (h : Heap)
    (q : mfsm_EventQueue) (e : mfsm_Event) :
    (∀ (h' : Heap) (e' : mfsm_Event), appendEvent MAX h' 0 e' = (h', -1)) ∧
    (∀ i, i < q.numListeners → q.listeners i = 0 →
      (sendEvent MAX h q e).2 = -1) := by
  constructor
  · exact fun h' e' => appendEvent_null MAX h' e'
  · intro i hi h0
    have hz := sendLoop_null_error MAX q e q.numListeners 0 h
      ⟨i, by omega, by omega, h0⟩
    unfold sendEvent
    simp [hz]

/-- Witness for C9 at concrete inputs: the null check of `appendEvent`, and a
broadcast over `qNull` (whose slot 1 is null within the visited range)
returning -1. -/
theorem sendEvent_null_slot_safe_witness :
    appendEvent 4 emptyHeap 0 { id := 9 } = (emptyHeap, -1) ∧
    (sendEvent 4 emptyHeap qNull { id := 9 }).2 = -1 :=
  ⟨(sendEvent_null_slot_safe 4 emptyHeap qNull { id := 9 }).1 emptyHeap
      { id := 9 },
   (sendEvent_null_slot_safe 4 emptyHeap qNull { id := 9 }).2 1 (by decide)
      rfl⟩

/-- Counterexample to C1 as stated: in `qGap` (`numListeners = 1`, sole
registration at slot 1, address 2, empty and far from full), `sendEvent`
iterates only slot 0 — so the registered listener at address 2 receives
nothing (its count stays 0) and the call reports -1. The claim's conclusion —
every non-empty slot receives a copy of the event regardless of which slots
the registrations occupy — is false here. -/
theorem sendEvent_skips_high_slot :
    (sendEvent 4 emptyHeap qGap { id := 7 }).2 = -1 ∧
    ((sendEvent 4 emptyHeap qGap { id := 7 }).1 2).numEvents = 0 := by
  decide

/-- Claim C1 (amended): `sendEvent` invokes `appendEvent` on exactly the
slots at indices `0 ≤ i < numListeners`, not the full capacity range. When
those slots hold pairwise-distinct non-null references to non-full
listeners, each of those listeners receives a copy of the event and
`sendEvent` returns 0; every listener whose address is not stored in one of
those first `numListeners` slots — including registrations occupying
higher-indexed slots — is left unchanged. -/
theorem sendEvent_prefix_broadcast (MAX : Nat) (h : Heap)
    (q : mfsm_EventQueue) (e : mfsm_Event)
    (hnn : ∀ i, i < q.numListeners → q.listeners i ≠ 0)
    (hdist : ∀ i j, i < q.numListeners → j < q.numListeners → i ≠ j →
      q.listeners i ≠ q.listeners j)
    (hcap : ∀ i, i < q.numListeners →
      (h (q.listeners i)).numEvents < MAX) :
    (∀ i, i < q.numListeners →
      (sendEvent MAX h q e).1 (q.listeners i) =
        pushEvent (h (q.listeners i)) e) ∧
    (sendEvent MAX h q e).2 = 0 ∧
    (∀ a, (∀ i, i < q.numListeners → q.listeners i ≠ a) →
      (sendEvent MAX h q e).1 a = h a) := by
  obtain ⟨hdel, hcnt⟩ := sendLoop_deliver MAX q e q.numListeners 0 h
    (fun j h1 h2 => hnn j (by omega))
    (fun j k a b c d => hdist j k (by omega) (by omega))
    (fun j h1 h2 => hcap j (by omega))
  refine ⟨?_, ?_, ?_⟩
  · intro i hi
    rw [sendEvent_heap]
    exact hdel i (by omega) (by omega)
  · unfold sendEvent
    simp [hcnt]
  · intro a ha
    rw [sendEvent_heap]
    exact sendLoop_frame MAX q e a q.numListeners 0 h
      (fun j h1 h2 => ha j (by omega))

/-- Witness for the amended C1 at concrete inputs: over `queueAB` (addresses
1 and 2 in slots 0 and 1) with capacity 1 and the empty heap, the slot-0
listener receives the event, the call returns 0, and the unrelated address 5
is untouched. -/
theorem sendEvent_prefix_broadcast_witness :
    (sendEvent 1 emptyHeap queueAB { id := 7 }).1 1 =
      pushEvent emptyListener { id := 7 } ∧
    (sendEvent 1 emptyHeap queueAB { id := 7 }).2 = 0 ∧
    (sendEvent 1 emptyHeap queueAB { id := 7 }).1 5 = emptyListener := by
  have hw := sendEvent_prefix_broadcast 1 emptyHeap queueAB { id := 7 }
    (by decide)
    (by
      intro i j hi hj hij
      have hi' : i < 2 := hi
      have hj' : j < 2 := hj
      interval_cases i <;> interval_cases j <;> simp_all [queueAB])
    (by decide)
  exact ⟨hw.1 0 (by decide), hw.2.1, hw.2.2 5 (by decide)⟩

/-- Counterexample to C10 as stated: register listener address 1 twice (slots
0 and 1 of a capacity-2 queue), then remove it once. The removal succeeds and
the duplicate survives in slot 1 (`dq3.listeners 1 = 1`), but the subsequent
`sendEvent` iterates only slot 0 — now null — so it returns -1 and the
listener at address 1 receives nothing (count stays 0), refuting the claim
that a subsequent `sendEvent` still delivers to that listener. -/
theorem removeListener_dup_no_delivery :
    (removeListener 2 (some dq2) 1).2 = 0 ∧
    dq3.listeners 1 = 1 ∧
    dq3.numListeners = 1 ∧
    (sendEvent 4 emptyHeap dq3 { id := 9 }).2 = -1 ∧
    ((sendEvent 4 emptyHeap dq3 { id := 9 }).1 1).numEvents = 0 := by
  decide

/-- Claim C10 (amended): if the same non-null listener reference occupies two
distinct slots, one `removeListener` call clears only the lowest-indexed
matching slot, decrements `numListeners` by exactly one, returns success, and
leaves the other registration in place, so a second `removeListener` call
also succeeds; but a subsequent `sendEvent` need not deliver to the surviving
registration, because it iterates only slots below the decremented
`numListeners`: in the minimal duplicate scenario (two copies in slots 0 and
1 of an otherwise empty capacity-2 queue) the broadcast hits only the nulled
slot 0, returns -1, and the listener receives nothing. -/
theorem removeListener_duplicate (M : Nat) (q : mfsm_EventQueue)
    (el i1 i2 : Nat) (hel : el ≠ 0) (hn : 1 ≤ q.numListeners)
    (hi1 : i1 < M) (hm1 : q.listeners i1 = el)
    (hleast : ∀ j, j < i1 → q.listeners j ≠ el)
    (hi2 : i2 < M) (hne : i2 ≠ i1) (hm2 : q.listeners i2 = el) :
    removeListener M (some q) el =
      (some { listeners := Function.update q.listeners i1 0,
              numListeners := q.numListeners - 1 }, 0) ∧
    Function.update q.listeners i1 0 i2 = el ∧
    (2 ≤ q.numListeners →
      (removeListener M
        (some { listeners := Function.update q.listeners i1 0,
                numListeners := q.numListeners - 1 }) el).2 = 0) ∧
    (sendEvent 4 emptyHeap dq3 { id := 9 }).2 = -1 ∧
    ((sendEvent 4 emptyHeap dq3 { id := 9 }).1 1).numEvents = 0 := by
  have hn' : ¬ q.numListeners < 1 := by omega
  have hscan := removeScan_least q el M 0 i1 (by omega) (by omega) hm1
    (fun j hj1 hj2 => hleast j hj2)
  refine ⟨?_, ?_, ?_, by decide, by decide⟩
  · simp [removeListener, hel, hn', hscan]
  · rw [Function.update_noteq hne]
    exact hm2
  · intro h2
    have hn2 : ¬ q.numListeners - 1 < 1 := by omega
    have hfound := removeScan_found
      { listeners := Function.update q.listeners i1 0,
        numListeners := q.numListeners - 1 } el M 0
      ⟨i2, by omega, by omega, by
        show Function.update q.listeners i1 0 i2 = el
        rw [Function.update_noteq hne]; exact hm2⟩
    simp [removeListener, hel, hn2, hfound]

/-- Witness for the amended C10 at concrete inputs: `qDup` holds address 1 in
slots 0 and 1; one removal clears slot 0 only and returns 0, the duplicate
survives, and a second removal also returns 0. -/
theorem removeListener_duplicate_witness :
    removeListener 2 (some qDup) 1 =
      (some { listeners := Function.update qDup.listeners 0 0,
              numListeners := qDup.numListeners - 1 }, 0) ∧
    Function.update qDup.listeners 0 0 1 = 1 ∧
    (removeListener 2
      (some { listeners := Function.update qDup.listeners 0 0,
              numListeners := qDup.numListeners - 1 }) 1).2 = 0 := by
  have hw := removeListener_duplicate 2 qDup 1 0 1 (by decide) (by decide)
    (by decide) (by decide) (fun j hj => absurd hj (by omega)) (by decide)
    (by decide) (by decide)
  exact ⟨hw.1, hw.2.1, hw.2.2.1 (by decide)⟩

end MicroFSM
